import Mathlib

/-!
Verification of the pyRdfa RDFa-core parser (RDFLib/pyrdfa3) against its
natural-language specification.

The Python source is shallowly embedded here.  Strings are modelled as lists
of characters (`Str`), restricted to the ASCII range, which covers every
behaviour exercised below (Python 2 `str.lower`, `re` on the NCNAME pattern,
and `urllib.quote` agree with the models on ASCII input).  Dictionaries are
modelled as association lists looked up front-to-back; the code only ever
stores one binding per key.  Timestamps (`datetime`) are modelled as natural
numbers counting seconds, with one hour = 3600 and one day = 86400.

Source files embedded:
  - `TermOrCurie.py`  (CURIE / term resolution, `@prefix` attribute handling,
    the module-level blank-node registry),
  - `parse.py`        (`parse_one_node`, the recursive tree walk),
  - `Literal.py`      (`generate_literal`, datatype selection),
  - `ProfileCache.py` (`CachedProfile.__init__` / `_get_graph`, the
    profile cache with in-memory, persistent-index and disk layers),
  - `pyRdfa/utils.py` (`quote_URI`; `URIOpener`'s expiration default).

Where `parse.py` relies on a companion module that is absent from the source
tree (the 1.1-era `pyRdfa/state.py` providing `ExecutionContext` with
`list_mapping` / `setting_subject`), the corresponding operations are
modelled from the specification; each such definition is marked
`Modelled from the spec:` in its doc comment.
-/

/-! ## Definitions -/

/-- Python strings, modelled as lists of (ASCII) characters. -/
abbrev Str := List Char

/-- Python whitespace characters, as used by `str.strip()` / `str.split()`. -/
def isPySpace (c : Char) : Bool :=
  c = ' ' || c = '\t' || c = '\n' || c = '\r' || c = '\x0b' || c = '\x0c'

/-- Python `str.strip()`: drop leading and trailing whitespace. -/
def pyStrip (s : Str) : Str :=
  (s.dropWhile isPySpace).reverse.dropWhile isPySpace |>.reverse

/-- Helper for `pySplitWS`: accumulate the current word. -/
def pySplitWSAux : Str → Str → List Str
  | [], acc => if acc = [] then [] else [acc.reverse]
  | c :: rest, acc =>
    if isPySpace c then
      if acc = [] then pySplitWSAux rest []
      else acc.reverse :: pySplitWSAux rest []
    else pySplitWSAux rest (c :: acc)

/-- Python `str.split()` with no argument: split on runs of whitespace,
discarding empty fields. -/
def pySplitWS (s : Str) : List Str := pySplitWSAux s []

/-- Python `str.lower()` (ASCII). -/
def lowerL (s : Str) : Str := s.map Char.toLower

/-- The NCNAME check of `TermOrCurie.py`:
`ncname = re.compile("^[A-Za-z][A-Za-z0-9._-]*$")`, used via `ncname.match`. -/
def isNCNAME : Str → Bool
  | [] => false
  | c :: rest =>
    c.isAlpha && rest.all (fun d => d.isAlphanum || d = '.' || d = '_' || d = '-')

/-- Dictionary lookup on an association list (Python `d[k]` / `k in d`). -/
def lookupL {α : Type} (k : Str) : List (Str × α) → Option α
  | [] => none
  | (k', v) :: rest => if k' = k then some v else lookupL k rest

/-- Dictionary update `d[k] = v`: replace the binding if the key is present,
append it otherwise. -/
def setL {α : Type} (k : Str) (v : α) : List (Str × α) → List (Str × α)
  | [] => [(k, v)]
  | (k', v') :: rest => if k' = k then (k, v) :: rest else (k', v') :: setL k v rest

/-- Characters that `urllib.quote` leaves untouched by default
(Python 2 `always_safe`: letters, digits, `_.-`). -/
def isAlwaysSafe (c : Char) : Bool :=
  c.isAlphanum || c = '_' || c = '.' || c = '-'

/-- Hexadecimal digit (upper case), for `%XX` escapes. -/
def hexDigit (n : Nat) : Char :=
  if n < 10 then Char.ofNat ('0'.toNat + n) else Char.ofNat ('A'.toNat + (n - 10))

/-- The `%XX` percent-escape of one (ASCII) character, as `urllib.quote` emits. -/
def pctEscape (c : Char) : Str :=
  ['%', hexDigit (c.toNat / 16), hexDigit (c.toNat % 16)]

/-- Function `quote_URI` from `pyRdfa/utils.py`: strip the value, then
`urllib.quote(suri, ':/\\?=#~')` — every character outside `always_safe` and
that extra safe set is percent-escaped.  (The warning emitted for unusual
characters has no effect on the returned value and is not modelled.) -/
def quote_URI (s : Str) : Str :=
  (pyStrip s).flatMap fun c =>
    if isAlwaysSafe c || c = ':' || c = '/' || c = '\\' || c = '?' || c = '='
        || c = '#' || c = '~' then [c]
    else pctEscape c

/-- RDF resources as they appear in emitted triples: URI references, blank
nodes (identified by the order in which `BNode()` allocated them within one
run, modelled by a counter), and literals (value, optional language tag,
optional datatype URI). -/
inductive Res where
  | uri : Str → Res
  | bnode : Nat → Res
  | lit : Str → Option Str → Option Str → Res
deriving DecidableEq, Repr

/-- An RDF triple. -/
structure Trip where
  s : Res
  p : Res
  o : Res
deriving DecidableEq, Repr

/-- The check `isinstance(x, BNode)`. -/
def isBNodeRes : Res → Bool
  | .bnode _ => true
  | _ => false

/-- The module-level blank-node registry of `TermOrCurie.py`
(`_bnodes` plus the reserved `_empty_bnode` allocated at import time).
`_empty_bnode` is the blank node with index 0; `BNode()` calls made for named
locals hand out indices starting from `cnt`, which therefore starts at 1. -/
structure BReg where
  cnt : Nat
  named : List (Str × Nat)
deriving Repr

/-- The registry as it is right after module import. -/
def BReg.init : BReg := ⟨1, []⟩

/-- Well-formedness of the blank-node registry: the counter has moved past
the reserved empty blank node, and no named local is bound to it. -/
def BReg.WF (r : BReg) : Prop :=
  1 ≤ r.cnt ∧ ∀ pr ∈ r.named, 1 ≤ pr.2 ∧ pr.2 < r.cnt

/-- The data of one `TermOrCurie` instance: the RDFa version flag
(`rdfa_version >= "1.1"`), the namespace dictionary `self.ns`, the term
dictionary `self.terms`, `self.default_curie_uri` and
`self.default_term_uri`. -/
structure TCtx where
  is11 : Bool
  ns : List (Str × Str)
  terms : List (Str × Str)
  defaultCurieUri : Str
  defaultTermUri : Option Str

/-- Python `val.split(':', 1)`: `none` when the string has no colon, otherwise the
parts before and after the first colon. -/
def splitFirstColon : Str → Option (Str × Str)
  | [] => none
  | c :: rest =>
    if c = ':' then some ([], rest)
    else
      match splitFirstColon rest with
      | none => none
      | some (a, b) => some (c :: a, b)

/-- The CURIE prefix as the code compares it: lower-cased under RDFa 1.1
(`TermOrCurie.CURIE_to_URI`, lines 486-489). -/
def curieKey (is11 : Bool) (p : Str) : Str := if is11 then lowerL p else p

/-- Method `TermOrCurie.CURIE_to_URI` (TermOrCurie.py lines 465-526), the CURIE to
URI mapping.  The module-level blank-node registry is threaded explicitly.
`Namespace.__getitem__` is string concatenation in the rdflib versions this
code supports. -/
def CURIE_to_URI (tc : TCtx) (val : Str) (reg : BReg) : Option Res × BReg :=
  if val = [] ∨ val = [':'] then (none, reg)
  else
    match splitFirstColon val with
    | none => (none, reg)
    | some (p0, reference) =>
      let pfx := curieKey tc.is11 p0
      if reference.head? = some ':' then (none, reg)
      else if pfx = [] then (some (.uri (tc.defaultCurieUri ++ reference)), reg)
      else if pfx = ['_'] then
        if reference = [] then (some (.bnode 0), reg)
        else
          match lookupL reference reg.named with
          | some k => (some (.bnode k), reg)
          | none =>
            (some (.bnode reg.cnt), ⟨reg.cnt + 1, reg.named ++ [(reference, reg.cnt)]⟩)
      else if isNCNAME pfx then
        match lookupL pfx tc.ns with
        | some b =>
          if reference = [] then (some (.uri b), reg)
          else (some (.uri (b ++ reference)), reg)
        | none => (none, reg)
      else (none, reg)

/-- The case-insensitive scan of `term_to_URI` (step 2 of the algorithm):
`for defined_term in self.terms: if term.lower() == defined_term.lower():
return self.terms[defined_term]`. -/
def ciLookup (t : Str) : List (Str × Str) → Option Str
  | [] => none
  | (k, v) :: rest => if lowerL t = lowerL k then some v else ciLookup t rest

/-- Method `TermOrCurie.term_to_URI` (TermOrCurie.py lines 528-557): case-sensitive
dictionary hit first, then a case-insensitive scan, then the default term
URI, and `none` for the empty string or any value that is not an NCNAME. -/
def term_to_URI (tc : TCtx) (term : Str) : Option Str :=
  if term = [] then none
  else if isNCNAME term then
    match lookupL term tc.terms with
    | some v => some v
    | none =>
      match ciLookup term tc.terms with
      | some v => some v
      | none =>
        match tc.defaultTermUri with
        | some d => some (d ++ term)
        | none => none
  else none

/-- One pass of the `@prefix` attribute loop of `TermOrCurie.__init__`
(TermOrCurie.py lines 417-448), over the whitespace-split token list,
consumed two tokens at a time (`for i in range(0, len(pr_list), 2)`).
The state is the local namespace dictionary `dict` being built plus
`self.default_curie_uri`.  A trailing token with no URI breaks the loop with
a warning; a token not ending in `:`, a `_` prefix and a non-NCNAME prefix
are skipped with a warning; an empty prefix re-binds the default CURIE URI;
otherwise the lower-cased prefix is bound to `Namespace(quote_URI(value))` —
but only if it is not yet in the dictionary ("This extra check is necessary
to allow for a left-to-right priority"). -/
def processPrList : List Str → List (Str × Str) × Str → List (Str × Str) × Str
  | [], st => st
  | [_], st => st
  | pfxTok :: valTok :: rest, (d, dcu) =>
    if pfxTok.getLast? ≠ some ':' then processPrList rest (d, dcu)
    else
      let pfx := pfxTok.dropLast
      let u := quote_URI valTok
      if pfx = [] then processPrList rest (d, u)
      else if pfx = ['_'] then processPrList rest (d, dcu)
      else if isNCNAME pfx then
        let rp := lowerL pfx
        if lookupL rp d = none then processPrList rest (d ++ [(rp, u)], dcu)
        else processPrList rest (d, dcu)
      else processPrList rest (d, dcu)

/-- Processing of a full `@prefix` attribute value (RDFa 1.1 path of
`TermOrCurie.__init__`): `pr.strip().split()` and then the two-by-two
token loop, starting from the dictionary built so far and the current
default CURIE URI. -/
def processPfxAttr (pr : Str) (d : List (Str × Str)) (dcu : Str) :
    List (Str × Str) × Str :=
  processPrList (pySplitWS (pyStrip pr)) (d, dcu)

/-- The registry after an arbitrary sequence of further `CURIE_to_URI` calls
(each possibly made with a different `TermOrCurie` instance — the registry is
module-global in `TermOrCurie.py`). -/
def regAfter (calls : List (TCtx × Str)) (reg : BReg) : BReg :=
  calls.foldl (fun r c => (CURIE_to_URI c.1 c.2 r).2) reg

/-- Timestamps, modelled as seconds (`datetime.datetime`); `utcnow()` is the
`now` parameter of `cachedProfile`. -/
abbrev Time := Nat

/-- One hour, `datetime.timedelta(hours=1)`. -/
def oneHour : Time := 3600

/-- The content of one cached profile: the `(terms, ns, vocabulary)` triple
held by `CachedProfile` and pickled into the cache files. -/
structure ProfData where
  terms : List (Str × Str)
  ns : List (Str × Str)
  vocab : Str
deriving DecidableEq, Repr

/-- The empty profile data `({}, {}, "")`. -/
def ProfData.empty : ProfData := ⟨[], [], []⟩

/-- The mutable state the profile cache acts on:
`CachedProfile.local_cache` (the process-wide in-memory completed cache),
the pickled index `CachedProfileIndex.indeces` mapping a source URI to
`(file name, creation date, expiration date)`, and the cache directory
contents mapping a file name to the pickled profile data. -/
structure CacheSt where
  localCache : List (Str × ProfData)
  index : List (Str × (Str × Option Time × Option Time))
  store : List (Str × ProfData)

/-- Outcome of one `CachedProfile(URI, ...)` construction:
`res` is the final `(terms, ns, vocabulary)` (`none` when `FailedProfile`
was raised out of the constructor), `st` the state afterwards, `fetches`
the number of network accesses attempted (`URIOpener` constructions), and
`expOut` the final value of `self.expiration_date`. -/
structure CacheOut where
  res : Option ProfData
  st : CacheSt
  fetches : Nat
  expOut : Option Time

/-- Function `create_file_name` from `pyRdfa/utils.py`: quote the stripped URI, then
replace the listed characters by `_`. -/
def create_file_name (uri : Str) : Str :=
  (quote_URI uri).map fun c =>
    if c = ' ' ∨ c = '%' ∨ c = '-' ∨ c = '+' ∨ c = '/' ∨ c = '?' ∨ c = ':'
        ∨ c = '=' ∨ c = '#' then '_' else c

/-- The expiry test `datetime.datetime.utcnow() <= self.expiration_date`
(ProfileCache.py line 305).  A `None` expiration date compares below any
`datetime` under Python 2's mixed-type ordering, so it counts as expired. -/
def notExpired (now : Time) (exp : Option Time) : Bool :=
  match exp with
  | some e => decide (now ≤ e)
  | none => false

/-- Constructor `CachedProfile.__init__` from `ProfileCache.py` (lines 259-335), with
`_get_profile_data` / `_get_graph` / `_store_caches` inlined.

The network is abstracted by the `fetch` oracle: `none` models a
dereferencing failure (`HTTPError` / `RDFaError` from `URIOpener`, handled by
`return_to_cache`), `some (pr, exp)` a successful fetch whose parsed graph
yields profile data `pr` (`_extract_profile_info`) and whose
`content.expiration_date` is `exp` (the HTTP `Expires` header, defaulting to
now + one day inside `URIOpener`).  A fetch that succeeds but whose body
fails to parse raises `FailedProfile` and is not modelled.  The
`CachedProfileIndex` constructor is assumed to reach its index (`caching`
stays `True`); pickle I/O errors are modelled only for `_load` on the data
file (a missing `store` entry), which the code swallows, keeping the
current (empty) data.

Note the faithful quirk: `_get_profile_data` ends without a `return`
statement on its success path, so it returns `None` in *every* case and the
`if self._get_profile_data(newCache=False) == None` refresh branch always
re-loads the old cache file when it exists. -/
def cachedProfile (now : Time) (fetch : Option (ProfData × Time)) (uri : Str)
    (st : CacheSt) : CacheOut :=
  match lookupL uri st.localCache with
  | some r => ⟨some r, st, 0, none⟩
  | none =>
    -- stake in the local cache, against recursion on the same profile
    let lc0 := setL uri ProfData.empty st.localCache
    match lookupL uri st.index with
    | none =>
      -- never cached before: _get_profile_data(newCache=True)
      match fetch with
      | none =>
        -- raise FailedProfile: the stake stays, nothing else is stored
        ⟨none, ⟨lc0, st.index, st.store⟩, 1, none⟩
      | some (pr, exp) =>
        let fn := create_file_name uri
        ⟨some pr,
          ⟨setL uri pr lc0, setL uri (fn, none, some exp) st.index,
            setL fn pr st.store⟩, 1, some exp⟩
    | some (fn, _, exp) =>
      if notExpired now exp then
        -- cache still valid: extract the data from the cache file
        match lookupL fn st.store with
        | some r => ⟨some r, ⟨setL uri r lc0, st.index, st.store⟩, 0, exp⟩
        | none =>
          -- _load failed; the (empty) data is kept, with an info record
          ⟨some ProfData.empty, ⟨lc0, st.index, st.store⟩, 0, exp⟩
      else
        -- expired: refresh the graph
        match fetch with
        | none =>
          -- re-fetch failed: err_outdated_cache warning, fall back on the
          -- cached file and push the expiration one hour forward
          match lookupL fn st.store with
          | some r =>
            ⟨some r,
              ⟨setL uri r lc0, setL uri (fn, some now, some (now + oneHour)) st.index,
                setL fn r st.store⟩, 1, some (now + oneHour)⟩
          | none =>
            ⟨some ProfData.empty,
              ⟨lc0, setL uri (fn, some now, exp) st.index,
                setL fn ProfData.empty st.store⟩, 1, exp⟩
        | some (pr, fexp) =>
          -- the fetch succeeded, but _get_profile_data still returns None,
          -- so the old cache file overrides the fresh data when it loads
          match lookupL fn st.store with
          | some r =>
            ⟨some r,
              ⟨setL uri r lc0, setL uri (fn, some now, some (now + oneHour)) st.index,
                setL fn r st.store⟩, 1, some (now + oneHour)⟩
          | none =>
            ⟨some pr,
              ⟨setL uri pr lc0, setL uri (fn, some now, some fexp) st.index,
                setL fn pr st.store⟩, 1, some fexp⟩

def rdfType : Res := .uri ("http://www.w3.org/1999/02/22-rdf-syntax-ns#type".data)

def rdfFirst : Res := .uri ("http://www.w3.org/1999/02/22-rdf-syntax-ns#first".data)

def rdfRest : Res := .uri ("http://www.w3.org/1999/02/22-rdf-syntax-ns#rest".data)

def rdfNil : Res := .uri ("http://www.w3.org/1999/02/22-rdf-syntax-ns#nil".data)

/-- The datatype `ns_rdf["XMLLiteral"]`. -/
def xmlLiteralURI : Str := "http://www.w3.org/1999/02/22-rdf-syntax-ns#XMLLiteral".data

/-- The RDFa-relevant attributes of one element, with their resolution
results.  `state.getURI` and the construction of the per-node
`ExecutionContext` are abstracted by recording, for each attribute, whether
it is present and what its resolution yields (`some none` = present but
unresolvable, as for an illegal CURIE); for the list-valued attributes the
resolved list is recorded next to the presence flag.  `plainText` /
`xmlText` abstract `Literal.py`'s `_get_literal` / `_get_XML_literal` DOM
serializations of the element's content, and `langCtx` the inherited
language (`state.lang`). -/
structure EAttrs where
  about : Option (Option Res) := none
  src : Option (Option Res) := none
  resource : Option (Option Res) := none
  href : Option (Option Res) := none
  typeofPresent : Bool := false
  typeofVals : List Res := []
  relPresent : Bool := false
  relVals : List Res := []
  revPresent : Bool := false
  revVals : List Res := []
  propPresent : Bool := false
  propVals : List Res := []
  contentAttr : Option Str := none
  datatypeAttr : Option (Option Str) := none
  plainText : Str := []
  xmlText : Str := []
  langCtx : Option Str := none
  inlist : Bool := false
  vocabPresent : Bool := false
  pfxPresent : Bool := false

/-- A DOM element: its RDFa attributes and its element children (text and
comment children only matter through `plainText` / `xmlText` above). -/
inductive Elem where
  | node : EAttrs → List Elem → Elem

/-- The per-predicate list accumulator (`state.list_mapping`). -/
abbrev LMap := List (Res × List Res)

/-- State threaded through the walk: the graph as the ordered list of
`graph.add` calls, the `BNode()` allocation counter, and the value of the
list mapping shared (by reference) with the incoming state. -/
structure WSt where
  g : List Trip
  cnt : Nat
  amb : LMap

/-- Modelled from the spec: `state.add_to_list_mapping(prop, value)` of the
1.1-era `pyRdfa/state.py`, which is absent from the source tree — "append
`current_object` to an ordered per-predicate accumulator" (spec §4.3 step
6). -/
def addToListMapping (p v : Res) : LMap → LMap
  | [] => [(p, [v])]
  | (q, vs) :: rest =>
    if q = p then (q, vs ++ [v]) :: rest else (q, vs) :: addToListMapping p v rest

/-- The test `has_one_of_attributes(node, "href", "resource", "about", "property",
"rel", "rev", "typeof", "src", "vocab", "prefix")` (parse.py line 85). -/
def hasRelevantAttrs (a : EAttrs) : Bool :=
  a.href.isSome || a.resource.isSome || a.about.isSome || a.propPresent ||
  a.relPresent || a.revPresent || a.typeofPresent || a.src.isSome ||
  a.vocabPresent || a.pfxPresent

/-- Result of subject/object establishment: `current_subject`,
`current_object`, the value assigned to `state.setting_subject` (read by the
children as `incoming_state.setting_subject`), and whether a new subject
was established (`reset_list_mapping` was called and `new_collection` set,
parse.py lines 113-117 and 146-150). -/
structure SubjObj where
  cs : Res
  co : Option Res
  childSS : Bool
  reset : Bool

/-- Subject and object establishment (parse.py lines 95-155), for a node
carrying at least one relevant attribute.  The branch on `@rel`/`@rev`
presence, the `elif` priority chains, the `BNode()` minting for `@typeof`,
and the `setting_subject` assignments follow the source line by line.  In
the branch without `@rel`/`@rev`, the assignment
`state.setting_subject = (current_object != None)` (line 145) reads
`current_object` while it still holds its initialisation `None` (line 96);
`co0` reproduces that dataflow. -/
def establishSubjObj (is11 : Bool) (a : EAttrs) (parentObj : Res) (st : WSt) :
    SubjObj × WSt :=
  if a.relPresent || a.revPresent then
    let csr : Option Res × WSt :=
      match a.about with
      | some r => (r, st)
      | none =>
        match (if is11 then none else a.src) with
        | some r => (r, st)
        | none =>
          if a.typeofPresent then (some (.bnode st.cnt), {st with cnt := st.cnt + 1})
          else (none, st)
    let co : Option Res :=
      match a.resource with
      | some r => r
      | none =>
        match a.href with
        | some r => r
        | none =>
          match (if is11 then a.src else none) with
          | some r => r
          | none => none
    match csr.1 with
    | none => (⟨parentObj, co, co.isSome, false⟩, csr.2)
    | some s => (⟨s, co, co.isSome, true⟩, csr.2)
  else
    let csr : Option Res × WSt :=
      match a.about with
      | some r => (r, st)
      | none =>
        match (if is11 then none else a.src) with
        | some r => (r, st)
        | none =>
          match a.resource with
          | some r => (r, st)
          | none =>
            match a.href with
            | some r => (r, st)
            | none =>
              match (if is11 then a.src else none) with
              | some r => (r, st)
              | none =>
                if a.typeofPresent then
                  (some (.bnode st.cnt), {st with cnt := st.cnt + 1})
                else (none, st)
    let co0 : Option Res := none
    let ss := co0.isSome
    match csr.1 with
    | none => (⟨parentObj, some parentObj, ss, false⟩, csr.2)
    | some s => (⟨s, some s, ss, true⟩, csr.2)

/-- The literal object built by `generate_literal` (`Literal.py`,
lines 120-176): `@content` wins; an explicit datatype equal to the
XML-literal type serializes the markup of the descendants; an empty or
unresolvable datatype gives a plain literal; without `@datatype`, RDFa 1.1
always takes the text content while RDFa 1.0 produces an XML literal
exactly when the element has element children. -/
def generate_literal_obj (is11 : Bool) (a : EAttrs) (hasElemChild : Bool) : Res :=
  match a.contentAttr with
  | some val =>
    match a.datatypeAttr with
    | none => .lit val a.langCtx none
    | some none => .lit val a.langCtx none
    | some (some d) => .lit val none (some d)
  | none =>
    match a.datatypeAttr with
    | some (some d) =>
      if d = xmlLiteralURI then .lit a.xmlText none (some xmlLiteralURI)
      else .lit a.plainText none (some d)
    | some none => .lit a.plainText a.langCtx none
    | none =>
      if is11 then .lit a.plainText a.langCtx none
      else if hasElemChild then .lit a.xmlText none (some xmlLiteralURI)
      else .lit a.plainText a.langCtx none

/-- Function `generate_literal` (`Literal.py`, lines 179-183): one triple
`(subject, prop, object)` per resolved `@property` value that is not a
blank node, appended to the graph in order. -/
def generate_literal (is11 : Bool) (a : EAttrs) (cs : Res) (hasElemChild : Bool)
    (g : List Trip) : List Trip :=
  let obj := generate_literal_obj is11 a hasElemChild
  g ++ (a.propVals.filter (fun p => !isBNodeRes p)).map fun p => ⟨cs, p, obj⟩

/-- Intermediate state of the `@rel`/`@rev` loops: graph, list mapping and
the `incomplete_triples` list under construction. -/
structure MidSt where
  g : List Trip
  m : LMap
  inc : List (Option Res × Res × Option Res)

/-- One iteration of the `@rel` loop (parse.py lines 171-185): blank-node
predicates are dropped with a warning; under RDFa 1.1 with `@inlist` a known
object goes to the list mapping and an unknown one records the
`(None, prop, None)` sentinel; otherwise a known object is emitted at once
and an unknown one records `(current_subject, prop, None)` as an incomplete
triple. -/
def relStep (is11 inlist : Bool) (cs : Res) (co : Option Res) (acc : MidSt)
    (p : Res) : MidSt :=
  if isBNodeRes p then acc
  else if is11 && inlist then
    match co with
    | some o => ⟨acc.g, addToListMapping p o acc.m, acc.inc⟩
    | none => ⟨acc.g, acc.m, acc.inc ++ [(none, p, none)]⟩
  else
    match co with
    | some o => ⟨acc.g ++ [⟨cs, p, o⟩], acc.m, acc.inc⟩
    | none => ⟨acc.g, acc.m, acc.inc ++ [(some cs, p, none)]⟩

/-- One iteration of the `@rev` loop (parse.py lines 187-195). -/
def revStep (cs : Res) (co : Option Res) (acc : MidSt) (p : Res) : MidSt :=
  if isBNodeRes p then acc
  else
    match co with
    | some o => ⟨acc.g ++ [⟨o, p, cs⟩], acc.m, acc.inc⟩
    | none => ⟨acc.g, acc.m, acc.inc ++ [(none, p, some cs)]⟩

/-- Graph plus the mapping that the completion loop may extend. -/
structure CompSt where
  g : List Trip
  m : LMap

/-- One iteration of the completion loop over
`parent_incomplete_triples` (parse.py lines 221-228): the `(None, p, None)`
sentinel registers `current_subject` in the *incoming* state's list
mapping; any other entry has its empty slots filled with `current_subject`
and is emitted. -/
def completeStep (cs : Res) (acc : CompSt) (t : Option Res × Res × Option Res) :
    CompSt :=
  match t with
  | (none, p, none) => ⟨acc.g, addToListMapping p cs acc.m⟩
  | (s, p, o) => ⟨acc.g ++ [⟨s.getD cs, p, o.getD cs⟩], acc.m⟩

/-- Materialization of one accumulated list (parse.py lines 232-243): one
fresh blank node per value, the `rdf:first` triples in order, the
`rdf:rest` chain, the `rdf:nil` terminator, and the head triple
`(current_subject, prop, heads[0])`.  An entry with no values is skipped
("should not happen"). -/
def materializeOne (cs : Res) (gc : List Trip × Nat) (entry : Res × List Res) :
    List Trip × Nat :=
  if entry.2.isEmpty then gc
  else
    let n := gc.2
    let k := entry.2.length
    let g1 := gc.1 ++ (entry.2.enum.map fun iv =>
      (⟨Res.bnode (n + iv.1), rdfFirst, iv.2⟩ : Trip))
    let g2 := g1 ++ ((List.range (k - 1)).map fun i =>
      (⟨Res.bnode (n + i), rdfRest, Res.bnode (n + i + 1)⟩ : Trip))
    let g3 := g2 ++ [⟨Res.bnode (n + k - 1), rdfRest, rdfNil⟩]
    (g3 ++ [⟨cs, entry.1, Res.bnode n⟩], n + k)

mutual

/-- Function `parse_one_node` (parse.py lines 47-248) for host languages without
embedded-RDF handling or DOM transforms.  The element's attributes arrive
pre-resolved in `EAttrs`; `incSS` is `incoming_state.setting_subject`;
`pinc` is `parent_incomplete_triples`; the `WSt` threads the graph, the
`BNode()` counter and the value of the list mapping shared with the
incoming state.  `reset_list_mapping` (a fresh mapping for the subtree,
spec §4.3 step 3) and the reference sharing of the mapping between a state
and its descendants are modelled from the spec, the 1.1-era
`pyRdfa/state.py` being absent from the source tree; a freshly constructed
`ExecutionContext` starts with `setting_subject = False`, so an element
with no relevant attributes forwards `False` to its children. -/
def walk (is11 : Bool) (e : Elem) (parentObj : Res) (incSS : Bool)
    (pinc : List (Option Res × Res × Option Res)) (st : WSt) : WSt :=
  match e with
  | .node a ch =>
    if hasRelevantAttrs a = false then
      walkList is11 ch parentObj false pinc st
    else
      let p1 := establishSubjObj is11 a parentObj st
      let so := p1.1
      let st1 := p1.2
      let newColl := so.reset || incSS
      let m0 : LMap := if newColl then [] else st1.amb
      let g1 := st1.g ++ a.typeofVals.map fun t => (⟨so.cs, rdfType, t⟩ : Trip)
      let mid1 := a.relVals.foldl (relStep is11 a.inlist so.cs so.co) ⟨g1, m0, []⟩
      let mid2 := a.revVals.foldl (revStep so.cs so.co) mid1
      let g2 := if a.propPresent then
          generate_literal is11 a so.cs (!ch.isEmpty) mid2.g
        else mid2.g
      let otcp : Res × Nat :=
        match so.co with
        | some o => (o, st1.cnt)
        | none => (Res.bnode st1.cnt, st1.cnt + 1)
      let stc := walkList is11 ch otcp.1 so.childSS mid2.inc ⟨g2, otcp.2, mid2.m⟩
      let ambIn := if newColl then st1.amb else stc.amb
      let comp := pinc.foldl (completeStep so.cs) ⟨stc.g, ambIn⟩
      if is11 && newColl && !stc.amb.isEmpty then
        let gc := stc.amb.foldl (materializeOne so.cs) (comp.g, stc.cnt)
        ⟨gc.1, gc.2, comp.m⟩
      else ⟨comp.g, stc.cnt, comp.m⟩
termination_by sizeOf e

/-- The recursion over the element children (parse.py lines 215-217). -/
def walkList (is11 : Bool) (l : List Elem) (parentObj : Res) (incSS : Bool)
    (pinc : List (Option Res × Res × Option Res)) (st : WSt) : WSt :=
  match l with
  | [] => st
  | c :: cs => walkList is11 cs parentObj incSS pinc (walk is11 c parentObj incSS pinc st)
termination_by sizeOf l

end

/-- An element with no RDFa-relevant attribute and no children. -/
def blankElem : Elem := .node {} []

/-- Every blank node mentioned in `r` has an index below `n`. -/
def resLt (r : Res) (n : Nat) : Bool :=
  match r with
  | .bnode k => decide (k < n)
  | _ => true

/-- Every blank node mentioned in the triple has an index below `n`. -/
def tripLt (t : Trip) (n : Nat) : Bool :=
  resLt t.s n && resLt t.p n && resLt t.o n

/-- The triple mentions the blank node with index `k`. -/
def mentionsBnode (t : Trip) (k : Nat) : Bool :=
  decide (t.s = .bnode k) || decide (t.p = .bnode k) || decide (t.o = .bnode k)

/-! ## Theorems -/

theorem lookupL_append_of_some {α : Type} {k : Str} {l1 : List (Str × α)}
    (l2 : List (Str × α)) {v : α} (h : lookupL k l1 = some v) :
    lookupL k (l1 ++ l2) = some v := by
  induction l1 with
  | nil => simp [lookupL] at h
  | cons hd tl ih =>
    obtain ⟨k', v'⟩ := hd
    by_cases hk : k' = k
    · simpa [lookupL, hk] using h
    · simp only [lookupL, hk, if_neg, List.cons_append] at h ⊢
      exact ih h

theorem lookupL_append_self {α : Type} {k : Str} {l : List (Str × α)}
    (h : lookupL k l = none) (v : α) : lookupL k (l ++ [(k, v)]) = some v := by
  induction l with
  | nil => simp [lookupL]
  | cons hd tl ih =>
    obtain ⟨k', v'⟩ := hd
    by_cases hk : k' = k
    · simp [lookupL, hk] at h
    · simp only [lookupL, hk, if_neg, List.cons_append] at h ⊢
      exact ih h

theorem lookupL_eq_none_of_forall {α : Type} {k : Str} {l : List (Str × α)}
    (h : ∀ kv ∈ l, kv.1 ≠ k) : lookupL k l = none := by
  induction l with
  | nil => rfl
  | cons hd tl ih =>
    have h1 : hd.1 ≠ k := h hd (by simp)
    obtain ⟨k', v'⟩ := hd
    simp only [lookupL, if_neg h1]
    exact ih fun kv hm => h kv (by simp [hm])

theorem lookupL_of_mem_nodup {α : Type} {k : Str} {v : α} {l : List (Str × α)}
    (hm : (k, v) ∈ l) (hnd : (l.map Prod.fst).Nodup) : lookupL k l = some v := by
  induction l with
  | nil => simp at hm
  | cons hd tl ih =>
    obtain ⟨k', v'⟩ := hd
    simp only [List.map_cons, List.nodup_cons] at hnd
    rcases List.mem_cons.mp hm with heq | htl
    · injection heq with h1 h2
      subst h1
      subst h2
      simp [lookupL]
    · have hk : k' ≠ k := by
        intro hkk
        subst hkk
        exact hnd.1 (List.mem_map.mpr ⟨(k', v), htl, rfl⟩)
      simp only [lookupL, if_neg hk]
      exact ih htl hnd.2

theorem splitFirstColon_append {p : Str} (l : Str) (hp : ':' ∉ p) :
    splitFirstColon (p ++ ':' :: l) = some (p, l) := by
  induction p with
  | nil => simp [splitFirstColon]
  | cons c rest ih =>
    have hc : c ≠ ':' := fun h => hp (h ▸ List.mem_cons_self c rest)
    have hrest : ':' ∉ rest := fun h => hp (List.mem_cons_of_mem c h)
    simp [splitFirstColon, hc, ih hrest]

theorem splitFirstColon_none {val : Str} (hv : ':' ∉ val) :
    splitFirstColon val = none := by
  induction val with
  | nil => rfl
  | cons c rest ih =>
    have hc : c ≠ ':' := fun h => hv (h ▸ List.mem_cons_self c rest)
    have hrest : ':' ∉ rest := fun h => hv (List.mem_cons_of_mem c h)
    simp [splitFirstColon, hc, ih hrest]

theorem isNCNAME_ne_nil {s : Str} (h : isNCNAME s = true) : s ≠ [] := by
  intro hs
  subst hs
  simp [isNCNAME] at h

theorem isNCNAME_ne_underscore {s : Str} (h : isNCNAME s = true) : s ≠ ['_'] := by
  intro hs
  subst hs
  simp [isNCNAME] at h

/-- C2.  For every CURIE value `p:l` whose prefix segment `p` maps to a
declared key of the active namespace table bound to base `B` (the key the
code consults is `p` lower-cased under RDFa 1.1; a declarable prefix is an
NCNAME, and per the spec a valid CURIE reference does not start with a
second colon), `CURIE_to_URI` returns `B ++ l`.  For every value `p:l` whose
prefix segment is not declared (and is neither `_` nor empty),
`CURIE_to_URI` returns `none`.  For every value containing no colon it
returns `none`. -/
theorem C2_curie_resolution (tc : TCtx) (reg : BReg) :
    (∀ (p l B : Str), ':' ∉ p → l.head? ≠ some ':' →
      isNCNAME (curieKey tc.is11 p) = true →
      lookupL (curieKey tc.is11 p) tc.ns = some B →
      (CURIE_to_URI tc (p ++ ':' :: l) reg).1 = some (.uri (B ++ l))) ∧
    (∀ (p l : Str), ':' ∉ p → p ≠ [] → curieKey tc.is11 p ≠ ['_'] →
      lookupL (curieKey tc.is11 p) tc.ns = none →
      (CURIE_to_URI tc (p ++ ':' :: l) reg).1 = none) ∧
    (∀ val : Str, ':' ∉ val → (CURIE_to_URI tc val reg).1 = none) := by
  refine ⟨?_, ?_, ?_⟩
  · intro p l B hp hl hnc hlk
    have hpne : p ≠ [] := by
      intro h
      subst h
      revert hnc
      unfold curieKey lowerL
      split <;> simp [isNCNAME]
    have hval2 : ¬(p ++ ':' :: l = [] ∨ p ++ ':' :: l = [':']) := by
      rcases p with _ | ⟨c, rest⟩
      · exact absurd rfl hpne
      · simp
    have hne : curieKey tc.is11 p ≠ [] := isNCNAME_ne_nil hnc
    have hnu : curieKey tc.is11 p ≠ ['_'] := isNCNAME_ne_underscore hnc
    rcases l with _ | ⟨c0, l0⟩
    · simp [CURIE_to_URI, splitFirstColon_append _ hp, hval2, hl, hne, hnu, hnc,
        hlk, hpne]
    · have hc0 : c0 ≠ ':' := by simpa using hl
      have hv2 : p ++ ':' :: c0 :: l0 ≠ [':'] := fun h => (hval2 (Or.inr h)).elim
      simp [CURIE_to_URI, splitFirstColon_append _ hp, hval2, hl, hne, hnu, hnc,
        hlk, hpne, hc0, hv2]
  · intro p l hp hpne hnu hlk
    have hval2 : ¬(p ++ ':' :: l = [] ∨ p ++ ':' :: l = [':']) := by
      rcases p with _ | ⟨c, rest⟩
      · exact absurd rfl hpne
      · simp
    have hne : curieKey tc.is11 p ≠ [] := by
      unfold curieKey lowerL
      split <;> simp [hpne]
    by_cases hl : l.head? = some ':'
    · simp [CURIE_to_URI, splitFirstColon_append _ hp, hval2, hl]
    · by_cases hnc : isNCNAME (curieKey tc.is11 p) = true
      · simp [CURIE_to_URI, splitFirstColon_append _ hp, hval2, hl, hne, hnu, hnc, hlk]
      · simp [CURIE_to_URI, splitFirstColon_append _ hp, hval2, hl, hne, hnu, hnc]
  · intro val hv
    by_cases h : val = [] ∨ val = [':']
    · simp [CURIE_to_URI, h]
    · simp [CURIE_to_URI, h, splitFirstColon_none hv]

/-- Witness for C2 at concrete inputs. -/
theorem C2_curie_resolution_witness :
    (CURIE_to_URI ⟨true, [(['f','o','o'], ['B','#'])], [], [], none⟩
        (['f','o','o'] ++ ':' :: ['x']) BReg.init).1 = some (.uri (['B','#'] ++ ['x'])) ∧
    (CURIE_to_URI ⟨true, [(['f','o','o'], ['B','#'])], [], [], none⟩
        (['b','a','r'] ++ ':' :: ['x']) BReg.init).1 = none ∧
    (CURIE_to_URI ⟨true, [(['f','o','o'], ['B','#'])], [], [], none⟩
        ['n','o','c'] BReg.init).1 = none := by
  refine ⟨?_, ?_, ?_⟩
  · exact (C2_curie_resolution _ BReg.init).1 ['f','o','o'] ['x'] ['B','#']
      (by decide) (by decide) (by decide) (by decide)
  · exact (C2_curie_resolution _ BReg.init).2.1 ['b','a','r'] ['x']
      (by decide) (by decide) (by decide) (by decide)
  · exact (C2_curie_resolution _ BReg.init).2.2 ['n','o','c'] (by decide)

theorem ciLookup_eq_none_of_forall {t : Str} {l : List (Str × Str)}
    (h : ∀ kv ∈ l, lowerL kv.1 ≠ lowerL t) : ciLookup t l = none := by
  induction l with
  | nil => rfl
  | cons hd tl ih =>
    obtain ⟨k, v⟩ := hd
    have h1 : lowerL t ≠ lowerL k := fun he => h (k, v) (by simp) he.symm
    simp only [ciLookup, if_neg h1]
    exact ih fun kv hm => h kv (by simp [hm])

theorem ciLookup_finds {t : Str} {l : List (Str × Str)}
    (h : ∃ kv ∈ l, lowerL kv.1 = lowerL t) :
    ∃ kv, kv ∈ l ∧ lowerL kv.1 = lowerL t ∧ ciLookup t l = some kv.2 := by
  induction l with
  | nil => simp at h
  | cons hd tl ih =>
    obtain ⟨k, v⟩ := hd
    by_cases h1 : lowerL t = lowerL k
    · exact ⟨(k, v), by simp, h1.symm, by simp [ciLookup, h1]⟩
    · have htl : ∃ kv ∈ tl, lowerL kv.1 = lowerL t := by
        rcases h with ⟨kv, hm, hk⟩
        rcases List.mem_cons.mp hm with heq | htl
        · subst heq
          exact absurd hk.symm h1
        · exact ⟨kv, htl, hk⟩
      obtain ⟨kv, hm, hk, hci⟩ := ih htl
      exact ⟨kv, List.mem_cons_of_mem _ hm, hk, by simp [ciLookup, h1, hci]⟩

/-- C3.  Term resolution (`term_to_URI`):
(1) an exact (case-sensitive) hit in the term table wins, even when a
different-cased key also exists;
(2) with no exact hit, a case-insensitively matching key's value is
returned;
(3) with no match at all, `default_vocab ++ term` is returned when a default
vocabulary is set;
(4) and `none` otherwise;
(5) a value that is not an NCNAME is never resolved as a term. -/
theorem C3_term_resolution (tc : TCtx) (t : Str) :
    (∀ v : Str, isNCNAME t = true → (tc.terms.map Prod.fst).Nodup →
      (t, v) ∈ tc.terms → term_to_URI tc t = some v) ∧
    (isNCNAME t = true → (∀ kv ∈ tc.terms, kv.1 ≠ t) →
      (∃ kv ∈ tc.terms, lowerL kv.1 = lowerL t) →
      ∃ kv, kv ∈ tc.terms ∧ lowerL kv.1 = lowerL t ∧ term_to_URI tc t = some kv.2) ∧
    (∀ d : Str, isNCNAME t = true → (∀ kv ∈ tc.terms, kv.1 ≠ t) →
      (∀ kv ∈ tc.terms, lowerL kv.1 ≠ lowerL t) → tc.defaultTermUri = some d →
      term_to_URI tc t = some (d ++ t)) ∧
    (isNCNAME t = true → (∀ kv ∈ tc.terms, kv.1 ≠ t) →
      (∀ kv ∈ tc.terms, lowerL kv.1 ≠ lowerL t) → tc.defaultTermUri = none →
      term_to_URI tc t = none) ∧
    (isNCNAME t = false → term_to_URI tc t = none) := by
  refine ⟨?_, ?_, ?_, ?_, ?_⟩
  · intro v hnc hnd hm
    have hne : t ≠ [] := isNCNAME_ne_nil hnc
    simp [term_to_URI, hne, hnc, lookupL_of_mem_nodup hm hnd]
  · intro hnc hex hci
    have hne : t ≠ [] := isNCNAME_ne_nil hnc
    obtain ⟨kv, hm, hk, hlk⟩ := ciLookup_finds hci
    exact ⟨kv, hm, hk, by simp [term_to_URI, hne, hnc, lookupL_eq_none_of_forall hex, hlk]⟩
  · intro d hnc hex hci hd
    have hne : t ≠ [] := isNCNAME_ne_nil hnc
    simp [term_to_URI, hne, hnc, lookupL_eq_none_of_forall hex,
      ciLookup_eq_none_of_forall hci, hd]
  · intro hnc hex hci hd
    have hne : t ≠ [] := isNCNAME_ne_nil hnc
    simp [term_to_URI, hne, hnc, lookupL_eq_none_of_forall hex,
      ciLookup_eq_none_of_forall hci, hd]
  · intro hnc
    by_cases hne : t = []
    · simp [term_to_URI, hne]
    · simp [term_to_URI, hne, hnc]

/-- Witness for C3 at concrete inputs: the table binds `next` and `NExt`;
the exact key wins for `next`, the case-insensitive scan fires for `NEXT`,
the default vocabulary completes `other`, and `9bad` is not an NCNAME. -/
theorem C3_term_resolution_witness :
    term_to_URI ⟨true, [], [(['n','e','x','t'], ['u','1']), (['N','E','x','t'], ['u','2'])],
        [], some ['V','#']⟩ ['n','e','x','t'] = some ['u','1'] ∧
    (∃ kv, kv ∈ [(['n','e','x','t'], ['u','1']), (['N','E','x','t'], ['u','2'])] ∧
      lowerL kv.1 = lowerL ['N','E','X','T'] ∧
      term_to_URI ⟨true, [], [(['n','e','x','t'], ['u','1']), (['N','E','x','t'], ['u','2'])],
        [], some ['V','#']⟩ ['N','E','X','T'] = some kv.2) ∧
    term_to_URI ⟨true, [], [(['n','e','x','t'], ['u','1']), (['N','E','x','t'], ['u','2'])],
        [], some ['V','#']⟩ ['o','t','h','e','r'] = some (['V','#'] ++ ['o','t','h','e','r']) ∧
    term_to_URI ⟨true, [], [(['n','e','x','t'], ['u','1']), (['N','E','x','t'], ['u','2'])],
        [], some ['V','#']⟩ ['9','b','a','d'] = none := by
  refine ⟨?_, ?_, ?_, ?_⟩
  · exact (C3_term_resolution _ _).1 ['u','1'] (by decide) (by decide) (by decide)
  · exact (C3_term_resolution
      ⟨true, [], [(['n','e','x','t'], ['u','1']), (['N','E','x','t'], ['u','2'])],
        [], some ['V','#']⟩ ['N','E','X','T']).2.1 (by decide) (by decide) (by decide)
  · exact (C3_term_resolution _ _).2.2.1 ['V','#'] (by decide) (by decide) (by decide) (by decide)
  · exact (C3_term_resolution _ _).2.2.2.2 (by decide)

/-- C5 counterexample.  The claim says the *later* declaration of a
prefix inside one `@prefix` attribute wins.  On the attribute value
`"foo: http://a.example/ foo: http://b.example/"` (processed on an empty
local dictionary) the table binds `foo` to the *first* URI, not the second:
`TermOrCurie.__init__` only inserts a prefix `if real_prefix not in dict`
("left-to-right priority"). -/
theorem C5_counterexample :
    lookupL ['f','o','o']
        (processPfxAttr ("foo: http://a.example/ foo: http://b.example/".data)
          [] []).1 = some ("http://a.example/".data) ∧
    lookupL ['f','o','o']
        (processPfxAttr ("foo: http://a.example/ foo: http://b.example/".data)
          [] []).1 ≠ some ("http://b.example/".data) := by
  decide

/-- C5, amended.  When a single `@prefix` attribute declares the same
prefix name more than once, the *earlier* (left-most) declaration in
document order wins: the dictionary binds the prefix to the first declared
base identifier (quoted by `quote_URI`), the later declaration being
dropped by the `real_prefix not in dict` check. -/
theorem C5_first_declaration_wins (p u1 u2 : Str) (d : List (Str × Str)) (dcu : Str)
    (hnc : isNCNAME p = true) (hlk : lookupL (lowerL p) d = none) :
    lookupL (lowerL p)
        (processPrList [p ++ [':'], u1, p ++ [':'], u2] (d, dcu)).1
      = some (quote_URI u1) := by
  have hpne := isNCNAME_ne_nil hnc
  have hpu := isNCNAME_ne_underscore hnc
  simp [processPrList, List.getLast?_concat, List.dropLast_concat, hpne, hpu, hnc,
    hlk, lookupL_append_self hlk (quote_URI u1)]

/-- Witness for the amended C5 at concrete inputs. -/
theorem C5_first_declaration_wins_witness :
    lookupL (lowerL ['f','o','o'])
        (processPrList [['f','o','o'] ++ [':'], ['u','1'], ['f','o','o'] ++ [':'], ['u','2']]
          ([], [])).1 = some (quote_URI ['u','1']) :=
  C5_first_declaration_wins ['f','o','o'] ['u','1'] ['u','2'] [] []
    (by decide) (by decide)

theorem lookupL_some_mem {α : Type} {k : Str} {v : α} {l : List (Str × α)}
    (h : lookupL k l = some v) : (k, v) ∈ l := by
  induction l with
  | nil => simp [lookupL] at h
  | cons hd tl ih =>
    obtain ⟨k', v'⟩ := hd
    by_cases hk : k' = k
    · subst hk
      simp [lookupL] at h
      simp [h]
    · simp only [lookupL, if_neg hk] at h
      exact List.mem_cons_of_mem _ (ih h)

/-- A `CURIE_to_URI` call either leaves the blank-node registry unchanged or
appends a single binding for a name that was not yet registered. -/
theorem CURIE_reg_cases (tc : TCtx) (v : Str) (reg : BReg) :
    (CURIE_to_URI tc v reg).2 = reg ∨
    ∃ y, lookupL y reg.named = none ∧
      (CURIE_to_URI tc v reg).2 = ⟨reg.cnt + 1, reg.named ++ [(y, reg.cnt)]⟩ := by
  unfold CURIE_to_URI
  dsimp only
  repeat' split
  all_goals first
    | (left; rfl)
    | (right; exact ⟨_, by assumption, rfl⟩)

theorem CURIE_named_mono (tc : TCtx) (v : Str) {reg : BReg} {x : Str} {k : Nat}
    (h : lookupL x reg.named = some k) :
    lookupL x (CURIE_to_URI tc v reg).2.named = some k := by
  rcases CURIE_reg_cases tc v reg with he | ⟨y, _, he⟩ <;> rw [he]
  · exact h
  · exact lookupL_append_of_some _ h

theorem CURIE_reg_WF (tc : TCtx) (v : Str) {reg : BReg} (hwf : reg.WF) :
    (CURIE_to_URI tc v reg).2.WF := by
  rcases CURIE_reg_cases tc v reg with he | ⟨y, _, he⟩ <;> rw [he]
  · exact hwf
  · refine ⟨Nat.le_trans hwf.1 (Nat.le_succ _), ?_⟩
    intro pr hm
    rcases List.mem_append.mp hm with h1 | h2
    · have h3 := hwf.2 pr h1
      exact ⟨h3.1, Nat.lt_succ_of_lt h3.2⟩
    · simp only [List.mem_singleton] at h2
      subst h2
      exact ⟨hwf.1, Nat.lt_succ_self _⟩

theorem regAfter_mono (calls : List (TCtx × Str)) {reg : BReg} {x : Str} {k : Nat}
    (h : lookupL x reg.named = some k) :
    lookupL x (regAfter calls reg).named = some k := by
  induction calls generalizing reg with
  | nil => exact h
  | cons c cs ih => exact ih (CURIE_named_mono c.1 c.2 h)

/-- Evaluation of `CURIE_to_URI` on a blank-node CURIE `_:x` with a
non-empty local name. -/
theorem CURIE_underscore_eval (tc : TCtx) (x : Str) (reg : BReg) (hx : x ≠ [])
    (hxc : x.head? ≠ some ':') :
    CURIE_to_URI tc ('_' :: ':' :: x) reg =
      match lookupL x reg.named with
      | some k => (some (.bnode k), reg)
      | none => (some (.bnode reg.cnt), ⟨reg.cnt + 1, reg.named ++ [(x, reg.cnt)]⟩) := by
  have hck : curieKey tc.is11 ['_'] = ['_'] := by
    cases tc.is11 <;> simp [curieKey, lowerL]
  simp [CURIE_to_URI, splitFirstColon, hxc, hck, hx]

/-- C7.  Blank-node identity within one run: resolving the CURIE `_:x`
(non-empty local name `x`) twice — with any interleaved CURIE resolutions,
on any `TermOrCurie` instances — yields the same blank-node handle both
times; the handle is never the reserved anonymous node; and resolving `_:`
always yields the single reserved anonymous handle (blank node 0), leaving
the registry untouched. -/
theorem C7_blank_node_identity (tc1 tc2 tc3 : TCtx) (x : Str) (reg : BReg)
    (calls : List (TCtx × Str)) (hwf : reg.WF) (hx : x ≠ [])
    (hxc : x.head? ≠ some ':') :
    ((CURIE_to_URI tc2 ('_' :: ':' :: x)
        (regAfter calls (CURIE_to_URI tc1 ('_' :: ':' :: x) reg).2)).1
      = (CURIE_to_URI tc1 ('_' :: ':' :: x) reg).1) ∧
    (∃ k, 1 ≤ k ∧ (CURIE_to_URI tc1 ('_' :: ':' :: x) reg).1 = some (.bnode k) ∧
      (.bnode k : Res) ≠ .bnode 0) ∧
    CURIE_to_URI tc3 ['_', ':'] reg = (some (.bnode 0), reg) := by
  have hempty : CURIE_to_URI tc3 ['_', ':'] reg = (some (.bnode 0), reg) := by
    have hck : curieKey tc3.is11 ['_'] = ['_'] := by
      cases tc3.is11 <;> simp [curieKey, lowerL]
    simp [CURIE_to_URI, splitFirstColon, hck]
  refine ⟨?_, ?_, hempty⟩
  · rw [CURIE_underscore_eval tc1 x reg hx hxc]
    cases hlk : lookupL x reg.named with
    | some k =>
      have h2 : lookupL x (regAfter calls reg).named = some k := regAfter_mono calls hlk
      simp only [hlk]
      rw [CURIE_underscore_eval tc2 x _ hx hxc, h2]
    | none =>
      have h1 : lookupL x (reg.named ++ [(x, reg.cnt)]) = some reg.cnt :=
        lookupL_append_self hlk reg.cnt
      simp only [hlk]
      rw [CURIE_underscore_eval tc2 x _ hx hxc]
      have h2 : lookupL x (regAfter calls (⟨reg.cnt + 1, reg.named ++ [(x, reg.cnt)]⟩ : BReg)).named
          = some reg.cnt := regAfter_mono calls h1
      rw [h2]
  · rw [CURIE_underscore_eval tc1 x reg hx hxc]
    cases hlk : lookupL x reg.named with
    | some k =>
      have hk1 : 1 ≤ k := (hwf.2 (x, k) (lookupL_some_mem hlk)).1
      exact ⟨k, hk1, by simp [hlk], by simp [Nat.ne_of_gt hk1]⟩
    | none =>
      exact ⟨reg.cnt, hwf.1, by simp [hlk], by simp [Nat.ne_of_gt hwf.1]⟩

/-- Witness for C7 at concrete inputs. -/
theorem C7_blank_node_identity_witness :
    ((CURIE_to_URI ⟨true, [], [], [], none⟩ ('_' :: ':' :: ['x'])
        (regAfter [] (CURIE_to_URI ⟨true, [], [], [], none⟩ ('_' :: ':' :: ['x'])
          BReg.init).2)).1
      = (CURIE_to_URI ⟨true, [], [], [], none⟩ ('_' :: ':' :: ['x']) BReg.init).1) ∧
    (∃ k, 1 ≤ k ∧
      (CURIE_to_URI ⟨true, [], [], [], none⟩ ('_' :: ':' :: ['x']) BReg.init).1
        = some (.bnode k) ∧ (.bnode k : Res) ≠ .bnode 0) ∧
    CURIE_to_URI ⟨true, [], [], [], none⟩ ['_', ':'] BReg.init
      = (some (.bnode 0), BReg.init) :=
  C7_blank_node_identity ⟨true, [], [], [], none⟩ ⟨true, [], [], [], none⟩
    ⟨true, [], [], [], none⟩ ['x'] BReg.init []
    (by constructor <;> simp [BReg.init]) (by decide) (by decide)

theorem lookupL_setL_self {α : Type} (k : Str) (v : α) (l : List (Str × α)) :
    lookupL k (setL k v l) = some v := by
  induction l with
  | nil => simp [setL, lookupL]
  | cons hd tl ih =>
    obtain ⟨k', v'⟩ := hd
    by_cases hk : k' = k
    · simp [setL, lookupL, hk]
    · simp [setL, lookupL, hk, ih]

/-- After any `CachedProfile` construction the source URI has an entry in the
in-memory completed cache (the data on success, the recursion stake when
`FailedProfile` propagated). -/
theorem cachedProfile_localCache_some (now : Time) (fetch : Option (ProfData × Time))
    (uri : Str) (st : CacheSt) :
    ∃ r, lookupL uri (cachedProfile now fetch uri st).st.localCache = some r := by
  unfold cachedProfile
  repeat' split
  all_goals dsimp only
  all_goals first
    | exact ⟨_, by assumption⟩
    | exact ⟨_, lookupL_setL_self _ _ _⟩

/-- A `CachedProfile` construction performs at most one network access. -/
theorem cachedProfile_fetches_le_one (now : Time) (fetch : Option (ProfData × Time))
    (uri : Str) (st : CacheSt) :
    (cachedProfile now fetch uri st).fetches ≤ 1 := by
  unfold cachedProfile
  repeat' split
  all_goals simp

/-- C8.  Vocabulary-cache idempotence:
(1) a source URI present in the in-memory completed cache is answered from
it, with no network access and no state change;
(2) a source URI with an unexpired persistent-index entry whose artifact
file loads is answered from the store with no network access;
(3) across two constructions for the same URI in one run, the first
performs at most one network access and the second performs none. -/
theorem C8_cache_idempotence (now now2 : Time) (fetch fetch2 : Option (ProfData × Time))
    (uri : Str) (st : CacheSt) :
    (∀ r : ProfData, lookupL uri st.localCache = some r →
      cachedProfile now fetch uri st = ⟨some r, st, 0, none⟩) ∧
    (∀ (fn : Str) (cr : Option Time) (e : Time) (r : ProfData),
      lookupL uri st.localCache = none →
      lookupL uri st.index = some (fn, cr, some e) → now ≤ e →
      lookupL fn st.store = some r →
      (cachedProfile now fetch uri st).res = some r ∧
        (cachedProfile now fetch uri st).fetches = 0) ∧
    ((cachedProfile now fetch uri st).fetches ≤ 1 ∧
      (cachedProfile now2 fetch2 uri (cachedProfile now fetch uri st).st).fetches = 0) := by
  refine ⟨?_, ?_, cachedProfile_fetches_le_one now fetch uri st, ?_⟩
  · intro r h
    simp [cachedProfile, h]
  · intro fn cr e r h1 h2 he h4
    have hne : notExpired now (some e) = true := by simp [notExpired, he]
    simp [cachedProfile, h1, h2, hne, h4]
  · obtain ⟨r, hr⟩ := cachedProfile_localCache_some now fetch uri st
    set st1 := (cachedProfile now fetch uri st).st with hst1
    simp [cachedProfile, hr]

/-- Witness for C8 at concrete inputs. -/
theorem C8_cache_idempotence_witness :
    (cachedProfile 5 none ['u'] ⟨[(['u'], ⟨[], [], ['v']⟩)], [], []⟩
      = ⟨some ⟨[], [], ['v']⟩, ⟨[(['u'], ⟨[], [], ['v']⟩)], [], []⟩, 0, none⟩) ∧
    ((cachedProfile 5 none ['w'] ⟨[], [(['w'], (['f'], none, some 9))],
        [(['f'], ⟨[], [], ['z']⟩)]⟩).res = some ⟨[], [], ['z']⟩ ∧
      (cachedProfile 5 none ['w'] ⟨[], [(['w'], (['f'], none, some 9))],
        [(['f'], ⟨[], [], ['z']⟩)]⟩).fetches = 0) := by
  constructor
  · exact (C8_cache_idempotence 5 0 none none ['u']
      ⟨[(['u'], ⟨[], [], ['v']⟩)], [], []⟩).1 ⟨[], [], ['v']⟩ (by decide)
  · exact (C8_cache_idempotence 5 0 none none ['w']
      ⟨[], [(['w'], (['f'], none, some 9))], [(['f'], ⟨[], [], ['z']⟩)]⟩).2.1
      ['f'] none 9 ⟨[], [], ['z']⟩ (by decide) (by decide) (by decide) (by decide)

/-- C9.  Expired cache entry: with `expires_at` in the past the
construction attempts exactly one re-fetch; when that fetch fails
(`fetch = none`) and the cached artifact loads, the previously cached data
is returned (no error is raised), the final expiration date is one hour
after the current time, and the index entry is updated accordingly. -/
theorem C9_expired_refetch_fallback (now : Time) (uri fn : Str)
    (cr : Option Time) (e : Time) (r : ProfData) (st : CacheSt)
    (h1 : lookupL uri st.localCache = none)
    (h2 : lookupL uri st.index = some (fn, cr, some e))
    (h3 : e < now)
    (h4 : lookupL fn st.store = some r) :
    (cachedProfile now none uri st).res = some r ∧
    (cachedProfile now none uri st).fetches = 1 ∧
    (cachedProfile now none uri st).expOut = some (now + oneHour) ∧
    lookupL uri (cachedProfile now none uri st).st.index
      = some (fn, some now, some (now + oneHour)) := by
  have hne : notExpired now (some e) = false := by
    unfold notExpired
    exact decide_eq_false (Nat.not_le.mpr h3)
  simp [cachedProfile, h1, h2, hne, h4, lookupL_setL_self]

/-- Witness for C9 at concrete inputs. -/
theorem C9_expired_refetch_fallback_witness :
    (cachedProfile 10 none ['w'] ⟨[], [(['w'], (['f'], none, some 4))],
        [(['f'], ⟨[], [], ['z']⟩)]⟩).res = some ⟨[], [], ['z']⟩ ∧
    (cachedProfile 10 none ['w'] ⟨[], [(['w'], (['f'], none, some 4))],
        [(['f'], ⟨[], [], ['z']⟩)]⟩).fetches = 1 ∧
    (cachedProfile 10 none ['w'] ⟨[], [(['w'], (['f'], none, some 4))],
        [(['f'], ⟨[], [], ['z']⟩)]⟩).expOut = some (10 + oneHour) ∧
    lookupL ['w'] (cachedProfile 10 none ['w'] ⟨[], [(['w'], (['f'], none, some 4))],
        [(['f'], ⟨[], [], ['z']⟩)]⟩).st.index = some (['f'], some 10, some (10 + oneHour)) :=
  C9_expired_refetch_fallback 10 ['w'] ['f'] none 4 ⟨[], [], ['z']⟩
    ⟨[], [(['w'], (['f'], none, some 4))], [(['f'], ⟨[], [], ['z']⟩)]⟩
    (by decide) (by decide) (by decide) (by decide)

/-- C10.  For every element carrying no `@rel` and no `@rev`, the
subject/object establishment assigns `setting_subject = False`, whatever
attribute establishes the subject: the assignment (parse.py line 145) reads
`current_object` before any object value has been computed in that branch,
so such an element never signals subject-setting to the list-reset logic
that its children consult through `incoming_state.setting_subject`. -/
theorem C10_setting_subject_false (is11 : Bool) (a : EAttrs) (parentObj : Res)
    (st : WSt) (hrel : a.relPresent = false) (hrev : a.revPresent = false) :
    ((establishSubjObj is11 a parentObj st).1).childSS = false := by
  unfold establishSubjObj
  simp only [hrel, hrev, Bool.or_self, Bool.or_false, if_neg, ite_false,
    Bool.false_eq_true]
  split <;> rfl

/-- Witness for C10: an element whose subject is established by `@about`. -/
theorem C10_setting_subject_false_witness :
    ((establishSubjObj true
        { about := some (some (.uri ['s'])), typeofPresent := true : EAttrs }
        (.uri ['o']) ⟨[], 0, []⟩).1).childSS = false :=
  C10_setting_subject_false true
    { about := some (some (.uri ['s'])), typeofPresent := true : EAttrs }
    (.uri ['o']) ⟨[], 0, []⟩ rfl rfl

theorem walk_blank (is11 : Bool) (pObj : Res) (incSS : Bool)
    (pinc : List (Option Res × Res × Option Res)) (st : WSt) :
    walk is11 blankElem pObj incSS pinc st = st := by
  simp [walk, blankElem, hasRelevantAttrs, walkList]

theorem walkList_blanks {l : List Elem} (h : ∀ e ∈ l, e = blankElem) (is11 : Bool)
    (pObj : Res) (incSS : Bool) (pinc : List (Option Res × Res × Option Res))
    (st : WSt) : walkList is11 l pObj incSS pinc st = st := by
  induction l with
  | nil => simp [walkList]
  | cons c cs ih =>
    have hc := h c (by simp)
    rw [walkList, hc, walk_blank]
    exact ih fun e he => h e (List.mem_cons_of_mem _ he)

theorem walkList_append (is11 : Bool) (l1 l2 : List Elem) (pObj : Res) (incSS : Bool)
    (pinc : List (Option Res × Res × Option Res)) (st : WSt) :
    walkList is11 (l1 ++ l2) pObj incSS pinc st
      = walkList is11 l2 pObj incSS pinc (walkList is11 l1 pObj incSS pinc st) := by
  induction l1 generalizing st with
  | nil => simp [walkList]
  | cons c cs ih =>
    rw [List.cons_append, walkList, walkList]
    exact ih _

/-- C1 counterexample.  A node with `rel` resolving to `p` and no
resolvable object, and *exactly one* descendant establishing a subject `s`
(the other child carries only a `rel` attribute, which does not establish a
subject — its subject falls back to the parent's minted object).  The claim
says the walk emits exactly `(d, p, s)`; instead the completion loop runs in
*every* attributed child, so the graph also receives `(d, p, _b0)` with the
fresh parent bnode, completed by the non-subject-establishing child. -/
theorem C1_counterexample :
    ((walk true
        (.node { relPresent := true, relVals := [.uri ['p']] }
          [ .node { relPresent := true, relVals := [.uri ['q']] } [],
            .node { about := some (some (.uri ['s'])) } [] ])
        (.uri ['d']) false [] ⟨[], 0, []⟩).g.filter
        (fun t => t.p = .uri ['p']))
      = [⟨.uri ['d'], .uri ['p'], .bnode 0⟩, ⟨.uri ['d'], .uri ['p'], .uri ['s']⟩] ∧
    ((walk true
        (.node { relPresent := true, relVals := [.uri ['p']] }
          [ .node { relPresent := true, relVals := [.uri ['q']] } [],
            .node { about := some (some (.uri ['s'])) } [] ])
        (.uri ['d']) false [] ⟨[], 0, []⟩).g.filter
        (fun t => t.p = .uri ['p']))
      ≠ [⟨.uri ['d'], .uri ['p'], .uri ['s']⟩] := by
  have h : (walk true
      (.node { relPresent := true, relVals := [.uri ['p']] }
        [ .node { relPresent := true, relVals := [.uri ['q']] } [],
          .node { about := some (some (.uri ['s'])) } [] ])
      (.uri ['d']) false [] ⟨[], 0, []⟩).g
      = [⟨.uri ['d'], .uri ['p'], .bnode 0⟩, ⟨.uri ['d'], .uri ['p'], .uri ['s']⟩] := by
    simp [walk, walkList, establishSubjObj, hasRelevantAttrs, relStep, revStep,
      completeStep, materializeOne, isBNodeRes, addToListMapping]
  rw [h]
  constructor
  · decide
  · decide

/-- C1, amended.  For a node with `rel` resolving to predicate `P` and
no resolvable object whose descendants are exactly one subject-establishing
element (`about` resolving to `S`) plus any number of elements carrying no
triple-relevant attribute, the walk emits exactly the one triple
`(parent-subject, P, S)` — added by the completion loop of the
subject-establishing descendant's call — and allocates one fresh blank node
(the parent's object for its children); dropping the subject-establishing
descendant, no triple with predicate `P` is ever emitted (the incomplete
triple dies unfinished), which is the amended form of "never emitted before
the descendant completes it".  (The amendment the counterexample forces: the
claim only holds when the subject-establishing descendant is the *only*
descendant carrying triple-relevant attributes, since every attributed
descendant at the top attributed level completes the parent's incomplete
triples.) -/
theorem C1_incomplete_triple_roundtrip (is11 : Bool) (PP S P : Res)
    (pre post : List Elem) (hpre : ∀ e ∈ pre, e = blankElem)
    (hpost : ∀ e ∈ post, e = blankElem)
    (hP : isBNodeRes P = false) (ss0 : Bool) (g0 : List Trip) (n0 : Nat)
    (amb0 : LMap) :
    walk is11
        (.node { relPresent := true, relVals := [P] }
          (pre ++ (.node { about := some (some S) } [] :: post)))
        PP ss0 [] ⟨g0, n0, amb0⟩
      = ⟨g0 ++ [⟨PP, P, S⟩], n0 + 1, amb0⟩ ∧
    walk is11
        (.node { relPresent := true, relVals := [P] } (pre ++ post))
        PP ss0 [] ⟨g0, n0, amb0⟩
      = ⟨g0, n0 + 1, amb0⟩ := by
  constructor <;> cases ss0 <;>
    simp [walk, walkList, walkList_append, walkList_blanks hpre, walkList_blanks hpost,
      establishSubjObj, hasRelevantAttrs, relStep, revStep, completeStep,
      materializeOne, addToListMapping, hP]

/-- Witness for the amended C1 at concrete inputs. -/
theorem C1_incomplete_triple_roundtrip_witness :
    walk true
        (.node { relPresent := true, relVals := [.uri ['p']] }
          ([blankElem] ++ (.node { about := some (some (.uri ['s'])) } [] :: [])))
        (.uri ['d']) false [] ⟨[], 0, []⟩
      = ⟨[] ++ [⟨.uri ['d'], .uri ['p'], .uri ['s']⟩], 0 + 1, []⟩ ∧
    walk true
        (.node { relPresent := true, relVals := [.uri ['p']] } ([blankElem] ++ []))
        (.uri ['d']) false [] ⟨[], 0, []⟩
      = ⟨[], 0 + 1, []⟩ :=
  C1_incomplete_triple_roundtrip true (.uri ['d']) (.uri ['s']) (.uri ['p'])
    [blankElem] [] (by simp) (by simp) (by decide) false [] 0 []

/-- C4, behaviour at the failing input.  An element whose `@datatype`
resolves to the XML-literal type emits the serialized markup of its
descendants as the literal (first triple) — but, contrary to the claim and
to the code's own comments (parse.py lines 199-200, the `Literal.py`
docstring announcing a return value that the function never returns),
ordinary triple extraction *continues* below that node: the child inside
the XML-literal subtree still produces its `rdf:type` triple (second
triple). -/
theorem C4_xml_literal_recursion :
    (walk true
        (.node { propPresent := true, propVals := [.uri ['t']],
                 datatypeAttr := some (some xmlLiteralURI), xmlText := ['m'] }
          [ .node { about := some (some (.uri ['a'])), typeofPresent := true,
                    typeofVals := [.uri ['T']] } [] ])
        (.uri ['d']) false [] ⟨[], 0, []⟩).g
      = [⟨.uri ['d'], .uri ['t'], .lit ['m'] none (some xmlLiteralURI)⟩,
         ⟨.uri ['a'], rdfType, .uri ['T']⟩] ∧
    (⟨.uri ['a'], rdfType, .uri ['T']⟩ : Trip) ∈
      (walk true
        (.node { propPresent := true, propVals := [.uri ['t']],
                 datatypeAttr := some (some xmlLiteralURI), xmlText := ['m'] }
          [ .node { about := some (some (.uri ['a'])), typeofPresent := true,
                    typeofVals := [.uri ['T']] } [] ])
        (.uri ['d']) false [] ⟨[], 0, []⟩).g := by
  have h : (walk true
      (.node { propPresent := true, propVals := [.uri ['t']],
               datatypeAttr := some (some xmlLiteralURI), xmlText := ['m'] }
        [ .node { about := some (some (.uri ['a'])), typeofPresent := true,
                  typeofVals := [.uri ['T']] } [] ])
      (.uri ['d']) false [] ⟨[], 0, []⟩).g
      = [⟨.uri ['d'], .uri ['t'], .lit ['m'] none (some xmlLiteralURI)⟩,
         ⟨.uri ['a'], rdfType, .uri ['T']⟩] := by
    simp [walk, walkList, establishSubjObj, hasRelevantAttrs, relStep, revStep,
      completeStep, materializeOne, isBNodeRes, addToListMapping,
      generate_literal, generate_literal_obj]
  exact ⟨h, by rw [h]; simp⟩

theorem resLt_mono {r : Res} {n m : Nat} (h : resLt r n = true) (hnm : n ≤ m) :
    resLt r m = true := by
  cases r <;> simp [resLt] at h ⊢
  omega

theorem resLt_ne_bnode {r : Res} {n k : Nat} (h : resLt r n = true) (hk : n ≤ k) :
    r ≠ .bnode k := by
  cases r <;> simp [resLt] at h ⊢
  omega

theorem mentionsBnode_false_of_tripLt {t : Trip} {n k : Nat}
    (h : tripLt t n = true) (hk : n ≤ k) : mentionsBnode t k = false := by
  simp only [tripLt, Bool.and_eq_true] at h
  simp [mentionsBnode, resLt_ne_bnode h.1.1 hk, resLt_ne_bnode h.1.2 hk,
    resLt_ne_bnode h.2 hk]

/-- C6.  Three sibling elements, each contributing one list value
`v1, v2, v3` under predicate `P` (RDFa 1.1, `@inlist`) in the scope of a
common freshly established subject `S`:  the walk emits exactly the
well-formed three-element list — three fresh blank nodes carrying the
`rdf:first` triples in order, the `rdf:rest` chain ending in `rdf:nil`, and
the head reference `(S, P, head)` — allocating exactly blank nodes
`n0, n0+1, n0+2` (part 1); the chain's blank nodes occur nowhere in the
graph built so far (part 2, so the chain shares no blank node with any list
materialized earlier); and every blank node of the resulting graph stays
below the returned counter (part 3, so any list materialized later — whose
chain starts at the later counter — shares no blank node with this one). -/
theorem C6_list_materialization (S P v1 v2 v3 O0 : Res) (ss0 : Bool) (g0 : List Trip)
    (n0 : Nat) (amb0 : LMap) (hP : isBNodeRes P = false) :
    (walk true
        (.node { about := some (some S) }
          [ .node { relPresent := true, relVals := [P], inlist := true,
                    resource := some (some v1) } [],
            .node { relPresent := true, relVals := [P], inlist := true,
                    resource := some (some v2) } [],
            .node { relPresent := true, relVals := [P], inlist := true,
                    resource := some (some v3) } [] ])
        O0 ss0 [] ⟨g0, n0, amb0⟩
      = ⟨g0 ++
          [⟨.bnode n0, rdfFirst, v1⟩, ⟨.bnode (n0+1), rdfFirst, v2⟩,
           ⟨.bnode (n0+2), rdfFirst, v3⟩,
           ⟨.bnode n0, rdfRest, .bnode (n0+1)⟩,
           ⟨.bnode (n0+1), rdfRest, .bnode (n0+2)⟩,
           ⟨.bnode (n0+2), rdfRest, rdfNil⟩,
           ⟨S, P, .bnode n0⟩],
         n0 + 3, amb0⟩) ∧
    ((∀ t ∈ g0, tripLt t n0 = true) →
      ∀ t ∈ g0, mentionsBnode t n0 = false ∧ mentionsBnode t (n0+1) = false ∧
        mentionsBnode t (n0+2) = false) ∧
    ((∀ t ∈ g0, tripLt t n0 = true) → resLt S n0 = true → resLt P n0 = true →
      resLt v1 n0 = true → resLt v2 n0 = true → resLt v3 n0 = true →
      ∀ t ∈ (walk true
        (.node { about := some (some S) }
          [ .node { relPresent := true, relVals := [P], inlist := true,
                    resource := some (some v1) } [],
            .node { relPresent := true, relVals := [P], inlist := true,
                    resource := some (some v2) } [],
            .node { relPresent := true, relVals := [P], inlist := true,
                    resource := some (some v3) } [] ])
        O0 ss0 [] ⟨g0, n0, amb0⟩).g, tripLt t (n0 + 3) = true) := by
  have hmain : walk true
      (.node { about := some (some S) }
        [ .node { relPresent := true, relVals := [P], inlist := true,
                  resource := some (some v1) } [],
          .node { relPresent := true, relVals := [P], inlist := true,
                  resource := some (some v2) } [],
          .node { relPresent := true, relVals := [P], inlist := true,
                  resource := some (some v3) } [] ])
      O0 ss0 [] ⟨g0, n0, amb0⟩
    = ⟨g0 ++
        [⟨.bnode n0, rdfFirst, v1⟩, ⟨.bnode (n0+1), rdfFirst, v2⟩,
         ⟨.bnode (n0+2), rdfFirst, v3⟩,
         ⟨.bnode n0, rdfRest, .bnode (n0+1)⟩,
         ⟨.bnode (n0+1), rdfRest, .bnode (n0+2)⟩,
         ⟨.bnode (n0+2), rdfRest, rdfNil⟩,
         ⟨S, P, .bnode n0⟩],
       n0 + 3, amb0⟩ := by
    simp [walk, walkList, establishSubjObj, hasRelevantAttrs, relStep, revStep,
      completeStep, materializeOne, addToListMapping, hP, List.enum,
      List.enumFrom, List.range_succ]
  refine ⟨hmain, ?_, ?_⟩
  · intro hg t ht
    exact ⟨mentionsBnode_false_of_tripLt (hg t ht) (by omega),
      mentionsBnode_false_of_tripLt (hg t ht) (by omega),
      mentionsBnode_false_of_tripLt (hg t ht) (by omega)⟩
  · intro hg hS hPl hv1 hv2 hv3 t ht
    rw [hmain] at ht
    have hb0 : resLt (.bnode n0) (n0 + 3) = true := by simp [resLt]
    have hb1 : resLt (.bnode (n0+1)) (n0 + 3) = true := by simp [resLt]
    have hb2 : resLt (.bnode (n0+2)) (n0 + 3) = true := by simp [resLt]
    have hfirst : resLt rdfFirst (n0 + 3) = true := by simp [resLt, rdfFirst]
    have hrest : resLt rdfRest (n0 + 3) = true := by simp [resLt, rdfRest]
    have hnil : resLt rdfNil (n0 + 3) = true := by simp [resLt, rdfNil]
    rcases List.mem_append.mp ht with h1 | h2
    · have h3 := hg t h1
      simp only [tripLt, Bool.and_eq_true] at h3 ⊢
      exact ⟨⟨resLt_mono h3.1.1 (by omega), resLt_mono h3.1.2 (by omega)⟩,
        resLt_mono h3.2 (by omega)⟩
    · simp only [List.mem_cons, List.not_mem_nil, or_false] at h2
      rcases h2 with rfl | rfl | rfl | rfl | rfl | rfl | rfl <;>
        simp only [tripLt, Bool.and_eq_true] <;>
        refine ⟨⟨?_, ?_⟩, ?_⟩ <;>
        first
          | exact hb0
          | exact hb1
          | exact hb2
          | exact hfirst
          | exact hrest
          | exact hnil
          | exact resLt_mono hS (by omega)
          | exact resLt_mono hPl (by omega)
          | exact resLt_mono hv1 (by omega)
          | exact resLt_mono hv2 (by omega)
          | exact resLt_mono hv3 (by omega)

/-- Witness for C6 at concrete inputs. -/
theorem C6_list_materialization_witness :
    walk true
        (.node { about := some (some (.uri ['s'])) }
          [ .node { relPresent := true, relVals := [.uri ['p']], inlist := true,
                    resource := some (some (.uri ['a'])) } [],
            .node { relPresent := true, relVals := [.uri ['p']], inlist := true,
                    resource := some (some (.uri ['b'])) } [],
            .node { relPresent := true, relVals := [.uri ['p']], inlist := true,
                    resource := some (some (.uri ['c'])) } [] ])
        (.uri ['o']) false [] ⟨[], 0, []⟩
      = ⟨[] ++
          [⟨.bnode 0, rdfFirst, .uri ['a']⟩, ⟨.bnode (0+1), rdfFirst, .uri ['b']⟩,
           ⟨.bnode (0+2), rdfFirst, .uri ['c']⟩,
           ⟨.bnode 0, rdfRest, .bnode (0+1)⟩,
           ⟨.bnode (0+1), rdfRest, .bnode (0+2)⟩,
           ⟨.bnode (0+2), rdfRest, rdfNil⟩,
           ⟨.uri ['s'], .uri ['p'], .bnode 0⟩],
         0 + 3, []⟩ :=
  (C6_list_materialization (.uri ['s']) (.uri ['p']) (.uri ['a']) (.uri ['b'])
    (.uri ['c']) (.uri ['o']) false [] 0 [] (by decide)).1
